import Mathlib

/-!
Verification of the `wasm_swirl` fluid solver (src/src/wasm_swirl).

Shallow embedding conventions:
* `f64` values are modelled as exact rationals (`ℚ`); all the solver's
  arithmetic on them (add, neg, mul, div by 2, comparisons) is exact in the
  ranges the claims exercise.
* `usize` coordinates are modelled as `Int`.  A `HashMap<Coord2, T>` is a
  function `Coord2 → Option T`; a key the source could never insert (negative
  after a release-mode wrap of `0usize - 1`, or any out-of-domain key) is
  simply absent, which matches `HashMap::get` returning `None`.
  Where the source performs an *unchecked* `usize` subtraction the embedding
  additionally provides a checked variant returning `none` on underflow, to
  reason about the debug-mode panic explicitly.
* Lazy iterators are modelled as `List`s in the order the source produces
  them; `for_each` write-back loops become `List.foldl` over the same lists.
-/

namespace Swirl

/-- `space::coords::Axis`. -/
inductive Axis
  | X
  | Y
deriving DecidableEq, Repr

/-- `space::coords::Edge`. -/
inductive Edge
  | Top
  | Bottom
  | Left
  | Right
deriving DecidableEq, Repr

/-- `Edge::as_axis`. -/
def Edge.as_axis : Edge → Axis
  | .Top | .Bottom => .Y
  | .Left | .Right => .X

/-- `space::coords::EdgeInfo`. -/
inductive EdgeInfo
  | Corner : Edge → Edge → EdgeInfo
  | Edge : Edge → EdgeInfo
  | Neither
deriving DecidableEq, Repr

/-- `EdgeInfo::get_edge`. -/
def EdgeInfo.get_edge : EdgeInfo → Option Swirl.Edge
  | .Edge e => some e
  | _ => none

/-- `impl From<(Option<Edge>, Option<Edge>)> for EdgeInfo`, with the source's
match-arm order preserved (corners first, then single edges). -/
def EdgeInfo.ofPair : Option Swirl.Edge → Option Swirl.Edge → EdgeInfo
  | none, none => .Neither
  | some .Top, some .Left => .Corner .Top .Left
  | some .Left, some .Top => .Corner .Top .Left
  | some .Top, some .Right => .Corner .Top .Right
  | some .Right, some .Top => .Corner .Top .Right
  | some .Bottom, some .Right => .Corner .Bottom .Right
  | some .Right, some .Bottom => .Corner .Bottom .Right
  | some .Bottom, some .Left => .Corner .Bottom .Left
  | some .Left, some .Bottom => .Corner .Bottom .Left
  | some .Top, _ => .Edge .Top
  | _, some .Top => .Edge .Top
  | some .Bottom, _ => .Edge .Bottom
  | _, some .Bottom => .Edge .Bottom
  | some .Left, _ => .Edge .Left
  | _, some .Left => .Edge .Left
  | some .Right, _ => .Edge .Right
  | _, some .Right => .Edge .Right

/-- `space::coords::Corner(pub Edge, pub Edge)`. -/
structure Corner where
  e1 : Edge
  e2 : Edge
deriving DecidableEq, Repr

/-- `Corner::all`. -/
def Corner.all : List Corner :=
  [⟨.Top, .Left⟩, ⟨.Top, .Right⟩, ⟨.Bottom, .Left⟩, ⟨.Bottom, .Right⟩]

/-- `space::coords::Coord2` (fields are `usize` in the source; modelled as
`Int`, see the module comment). -/
structure Coord2 where
  x : Int
  y : Int
deriving DecidableEq, Repr

/-- `space::coords::Rect` (source field order: height, width, origin). -/
structure Rect where
  height : Nat
  width : Nat
  origin : Coord2
deriving DecidableEq, Repr

/-- `Rect::contains` (note the source's inclusive upper bounds
`coords.x <= origin.x + width`). -/
def Rect.contains (r : Rect) (c : Coord2) : Bool :=
  decide ((r.origin.x ≤ c.x ∧ c.x ≤ r.origin.x + (r.width : Int))
    ∧ (r.origin.y ≤ c.y ∧ c.y ≤ r.origin.y + (r.height : Int)))

/-- `Rect::area`. -/
def Rect.area (r : Rect) : Nat := r.height * r.width

/-- The coordinate set enumerated by `Rect::coords_iter`
(`0..=width-1 × 0..=height-1`; the origin is ignored by the source
iterator). -/
def Rect.inDomain (r : Rect) (c : Coord2) : Bool :=
  decide (0 ≤ c.x ∧ c.x < (r.width : Int) ∧ 0 ≤ c.y ∧ c.y < (r.height : Int))

/-- `Rect::edge_at_coords` (trait `Edged`). -/
def Rect.edge_at_coords (r : Rect) (c : Coord2) : EdgeInfo :=
  let max_x : Int := (r.width : Int) - 1
  let max_y : Int := (r.height : Int) - 1
  let x_edge : Option Edge :=
    if c.x = 0 then some .Left else if c.x = max_x then some .Right else none
  let y_edge : Option Edge :=
    if c.y = 0 then some .Bottom else if c.y = max_y then some .Top else none
  EdgeInfo.ofPair x_edge y_edge

/-- `Rect::coords_of_corner` (trait `Edged`). -/
def Rect.coords_of_corner (r : Rect) (c : Corner) : Coord2 :=
  let max_x : Int := (r.width : Int) - 1
  let max_y : Int := (r.height : Int) - 1
  let x : Int :=
    match c with
    | ⟨.Right, _⟩ | ⟨_, .Right⟩ => max_x
    | _ => 0
  let y : Int :=
    match c with
    | ⟨.Top, _⟩ | ⟨_, .Top⟩ => max_y
    | _ => 0
  ⟨x, y⟩

/-- `Rect::edge_coord_iter`: top row, bottom row, then the left and right
columns with the corner rows excluded, each coordinate paired with its
`edge_at_coords` classification. -/
def Rect.edge_coord_iter (r : Rect) : List (EdgeInfo × Coord2) :=
  let max_x : Int := (r.width : Int) - 1
  let max_y : Int := (r.height : Int) - 1
  let top_edge : List Coord2 := (List.range r.width).map fun (x : Nat) => ⟨(x : Int), max_y⟩
  let bot_edge : List Coord2 := (List.range r.width).map fun (x : Nat) => ⟨(x : Int), 0⟩
  let left_edge : List Coord2 :=
    (List.range' 1 (r.height - 2)).map fun (y : Nat) => ⟨0, (y : Int)⟩
  let right_edge : List Coord2 :=
    (List.range' 1 (r.height - 2)).map fun (y : Nat) => ⟨max_x, (y : Int)⟩
  (top_edge ++ bot_edge ++ left_edge ++ right_edge).map fun c => (r.edge_at_coords c, c)

/-- `space::vector::Vector2` over exact rationals. -/
structure Vector2 where
  x : ℚ
  y : ℚ
deriving DecidableEq, Repr

instance instZeroVector2 : Zero Vector2 := ⟨⟨0, 0⟩⟩

instance instAddVector2 : Add Vector2 := ⟨fun a b => ⟨a.x + b.x, a.y + b.y⟩⟩

instance instHMulVector2 : HMul Vector2 ℚ Vector2 := ⟨fun v s => ⟨v.x * s, v.y * s⟩⟩

instance instHDivVector2 : HDiv Vector2 ℚ Vector2 := ⟨fun v s => ⟨v.x / s, v.y / s⟩⟩

theorem Vector2.zero_def : (0 : Vector2) = ⟨0, 0⟩ := rfl

theorem Vector2.x_zero : (0 : Vector2).x = 0 := rfl

theorem Vector2.y_zero : (0 : Vector2).y = 0 := rfl

/-- `space::matrix::Grid<T>`: a `Rect` plus a `HashMap<Coord2, T>`,
the map modelled as a function into `Option`. -/
structure Grid (T : Type) where
  dimensions : Rect
  items : Coord2 → Option T

/-- `Grid::from_dimensions`: the map starts empty (`with_capacity` allocates,
it does not insert). -/
def Grid.from_dimensions (T : Type) (dims : Rect) : Grid T :=
  ⟨dims, fun _ => none⟩

/-- `Grid::get`. -/
def Grid.get (g : Grid T) (c : Coord2) : Option T := g.items c

/-- `Grid::set` (point update; the source also returns the displaced previous
value, which no claim concerns). -/
def Grid.set (g : Grid T) (c : Coord2) (v : T) : Grid T :=
  ⟨g.dimensions, fun c' => if c' = c then some v else g.items c'⟩

/-- `Grid::get_corner`. -/
def Grid.get_corner (g : Grid T) (corner : Corner) : Option (Coord2 × T) :=
  let coords := g.dimensions.coords_of_corner corner
  (g.items coords).map fun v => (coords, v)

/-- `Grid::set_corner`. -/
def Grid.set_corner (g : Grid T) (corner : Corner) (v : T) : Grid T :=
  g.set (g.dimensions.coords_of_corner corner) v

/-- `usize::checked_sub(1).unwrap_or(0)` as used by
`Grid::get_adjacent_neighbors` (callers only pass nonnegative in-domain
coordinates). -/
def satSub1 (n : Int) : Int := if n = 0 then 0 else n - 1

/-- `Grid::get_adjacent_neighbors`: the saturating candidate list
left, right, below, above, keeping only coordinates present in the map. -/
def Grid.get_adjacent_neighbors (g : Grid T) (c : Coord2) : List (Coord2 × T) :=
  ([⟨satSub1 c.x, c.y⟩, ⟨c.x + 1, c.y⟩, ⟨c.x, satSub1 c.y⟩, ⟨c.x, c.y + 1⟩] : List Coord2).filterMap
    fun c' => (g.items c').map fun v => (c', v)

/-- `pt.floor() as usize`: an `f64 → usize` cast saturates below at 0. -/
def floorAsUsize (q : ℚ) : Int := max 0 ⌊q⌋

/-- `Grid::interpolate`, exactly as written in the source, including its
weight assignment (the floor corner is weighted `left_weight * bot_weight`
where `left_weight = pt.0 - x_left`) and the absent-cell-as-default
behavior. -/
def Grid.interpolate [Zero T] [Add T] [HMul T ℚ T] (g : Grid T) (pt : ℚ × ℚ) : T :=
  let x_left : Int := floorAsUsize pt.1
  let y_bot : Int := floorAsUsize pt.2
  let x_right : Int := x_left + 1
  let y_top : Int := y_bot + 1
  let left_weight : ℚ := pt.1 - (x_left : ℚ)
  let right_weight : ℚ := 1 - left_weight
  let bot_weight : ℚ := pt.2 - (y_bot : ℚ)
  let top_weight : ℚ := 1 - bot_weight
  let bottom_left : T :=
    ((g.items ⟨x_left, y_bot⟩).map fun v => (v * left_weight * bot_weight : T)).getD 0
  let top_left : T :=
    ((g.items ⟨x_left, y_top⟩).map fun v => (v * left_weight * top_weight : T)).getD 0
  let bottom_right : T :=
    ((g.items ⟨x_right, y_bot⟩).map fun v => (v * right_weight * bot_weight : T)).getD 0
  let top_right : T :=
    ((g.items ⟨x_right, y_top⟩).map fun v => (v * right_weight * top_weight : T)).getD 0
  bottom_left + top_left + bottom_right + top_right

/-- `math::Clamp::clam` at `f64`. -/
def clam (v mn mx : ℚ) : ℚ := if v < mn then mn else if v > mx then mx else v

/-- Trait `fluid::ValueAtEdge`. -/
class ValueAtEdge (T : Type) where
  value_at_edge : Edge → T → T

/-- `impl ValueAtEdge for Vector2`: Left/Right negate x and copy y,
Top/Bottom copy x and negate y. -/
instance instValueAtEdgeVector2 : ValueAtEdge Vector2 :=
  ⟨fun e n =>
    match e with
    | .Left | .Right => ⟨-n.x, n.y⟩
    | .Top | .Bottom => ⟨n.x, -n.y⟩⟩

/-- `impl ValueAtEdge for Density` (scalars are copied unchanged). -/
instance instValueAtEdgeRat : ValueAtEdge ℚ := ⟨fun _ n => n⟩

/-- The `neighbor_coords` match inside `Fluid::fix_edges`, verbatim:
Top reads `(x, y+1)`, Bottom reads `(x, y-1)`, Left reads `(x+1, y)`,
Right reads `(x-1, y)`.  In the `Int` model a coordinate the `usize`
subtraction would have underflowed on becomes negative and is absent from
every grid, matching the release-mode wrap (the wrapped huge index is never
a key either). -/
def fixEdgesNeighborCoords (e : Edge) (c : Coord2) : Coord2 :=
  match e with
  | .Top => ⟨c.x, c.y + 1⟩
  | .Bottom => ⟨c.x, c.y - 1⟩
  | .Left => ⟨c.x + 1, c.y⟩
  | .Right => ⟨c.x - 1, c.y⟩

/-- The same `neighbor_coords` computation with the source's *unchecked*
`usize` subtractions made explicit: on a nonnegative coordinate the result is
`none` exactly where `coords.y - 1` (resp. `coords.x - 1`) underflows, which
panics in debug builds and wraps in release builds. -/
def fixEdgesNeighborCoordsChecked (e : Edge) (c : Coord2) : Option Coord2 :=
  match e with
  | .Top => some ⟨c.x, c.y + 1⟩
  | .Bottom => if c.y = 0 then none else some ⟨c.x, c.y - 1⟩
  | .Left => some ⟨c.x + 1, c.y⟩
  | .Right => if c.x = 0 then none else some ⟨c.x - 1, c.y⟩

/-- `Fluid::fix_edges`: for every boundary cell of `edge_coord_iter` that is
present in the map and classified as a pure edge (corners filtered out),
overwrite it with `value_at_edge(edge, neighbor)` where `neighbor` is the
cell at `fixEdgesNeighborCoords` (absent reads as the default/zero).  The
source pipeline is a lazy per-element read-then-write loop; reads only ever
touch non-edge coordinates, and the presence and corner filters commute, so
the sequential fold below is its exact effect. -/
def Fluid.fix_edges [Zero T] [ValueAtEdge T] (g : Grid T) : Grid T :=
  g.dimensions.edge_coord_iter.foldl
    (fun acc p =>
      match p.1.get_edge with
      | none => acc
      | some edge =>
        match acc.items p.2 with
        | none => acc
        | some _ =>
          let neighbor : T := (acc.items (fixEdgesNeighborCoords edge p.2)).getD 0
          acc.set p.2 (ValueAtEdge.value_at_edge edge neighbor))
    g

/-- `Fluid::fix_corners`: for each of `Corner::all()` in order, if the corner
cell is present, replace it with (sum of its `get_adjacent_neighbors`
values) / 2.  Because the neighbor query saturates at 0 and drops absent
cells, the sum can include the corner itself (once or twice) and can have
fewer than two genuine edge neighbors. -/
def Fluid.fix_corners [Zero T] [Add T] [HDiv T ℚ T] (g : Grid T) : Grid T :=
  Corner.all.foldl
    (fun acc corner =>
      match acc.get_corner corner with
      | none => acc
      | some (coords, _) =>
        let neighbor_sum : T :=
          ((acc.get_adjacent_neighbors coords).map Prod.snd).foldl (· + ·) 0
        acc.set_corner corner (neighbor_sum / (2 : ℚ)))
    g

/-- `Fluid::set_bnd`: the source calls `fix_corners` first, then
`fix_edges`. -/
def Fluid.set_bnd [Zero T] [Add T] [HDiv T ℚ T] [ValueAtEdge T] (g : Grid T) : Grid T :=
  Fluid.fix_edges (Fluid.fix_corners g)

/-- The trace-back-and-clamp computation of `Fluid::advect` for the cell
`(x, y)`: `time_step = dt * N`, `trace_back = (x, y) - vel * time_step`, then
each axis is clamped by `clam` to `[0.5, max - 0.5]` where
`max_x = width - 2` and `max_y = height - 2`.  `n` stands for the crate-level
grid-size constant `N` (its defining module `crate::constant` is not among
the provided sources, so it is kept as a parameter). -/
def Fluid.advectTraceBack (dt n : ℚ) (dims : Rect) (vel : Vector2) (x y : Int) : ℚ × ℚ :=
  let time_step : ℚ := dt * n
  let dist : Vector2 := ⟨vel.x * time_step, vel.y * time_step⟩
  let trace_back : ℚ × ℚ := ((x : ℚ) - dist.x, (y : ℚ) - dist.y)
  let max_x : Int := (dims.width : Int) - 2
  let max_y : Int := (dims.height : Int) - 2
  (clam trace_back.1 (1/2) ((max_x : ℚ) - 1/2),
   clam trace_back.2 (1/2) ((max_y : ℚ) - 1/2))

/-- `Fluid::advect`: for every `x in 1..=width-2`, `y in 1..=height-2`,
read the velocity at `(x, y)` from `vel_prev`, trace back and clamp, sample
`grid_prev.interpolate` there, and store the sample into `grid` at `(x, y)`.
All reads go to `grid_prev`/`vel_prev`, so the loop's net effect is this
pointwise update.  The source `unwrap`s the velocity lookup (panicking when
the cell is unset); the embedding reads the default instead, and every
theorem below only invokes `advect` under hypotheses that set the cell. -/
def Fluid.advect [Zero T] [Add T] [HMul T ℚ T]
    (dt n : ℚ) (grid grid_prev : Grid T) (vel_prev : Grid Vector2) : Grid T :=
  let max_x : Int := (grid.dimensions.width : Int) - 2
  let max_y : Int := (grid.dimensions.height : Int) - 2
  ⟨grid.dimensions, fun c =>
    if 1 ≤ c.x ∧ c.x ≤ max_x ∧ 1 ≤ c.y ∧ c.y ≤ max_y then
      let vel : Vector2 := (vel_prev.items c).getD 0
      some (grid_prev.interpolate (Fluid.advectTraceBack dt n grid.dimensions vel c.x c.y))
    else grid.items c⟩

/-- `fluid::Fluid` (density values are the `Density` newtype over `f64`,
modelled as `ℚ`). -/
structure Fluid where
  diff : ℚ
  viscosity : ℚ
  dt : ℚ
  size : Nat
  density : Grid ℚ
  density_prev : Grid ℚ
  velocity : Grid Vector2
  velocity_prev : Grid Vector2

/-- `Fluid::new`: all four grids are created by `Grid::from_dimensions` on an
`n × n` rect and are therefore *empty* (nothing ever fills them in `new`).
`n` stands for the crate-level constant `N` from `crate::constant`, whose
defining file is not among the provided sources. -/
def Fluid.new (n : Nat) (dt diffusion viscosity : ℚ) : Fluid :=
  let dims : Rect := ⟨n, n, ⟨0, 0⟩⟩
  { diff := diffusion
    viscosity := viscosity
    dt := dt
    size := n
    density := Grid.from_dimensions ℚ dims
    density_prev := Grid.from_dimensions ℚ dims
    velocity := Grid.from_dimensions Vector2 dims
    velocity_prev := Grid.from_dimensions Vector2 dims }

/-- `Fluid::add_dye`: read the density cell at `pt`; when present, store the
old value plus `amount` and yield `Some(())`; when absent (never set, e.g.
out of domain or a freshly constructed fluid), do nothing and yield
`None`. -/
def Fluid.add_dye (f : Fluid) (pt : Coord2) (amount : ℚ) : Option Unit × Fluid :=
  match f.density.items pt with
  | none => (none, f)
  | some density =>
    (some (), { f with density := f.density.set pt (density + amount) })

/-- `Fluid::add_velocity` (same shape as `add_dye`, on the velocity grid). -/
def Fluid.add_velocity (f : Fluid) (pt : Coord2) (amount : Vector2) : Option Unit × Fluid :=
  match f.velocity.items pt with
  | none => (none, f)
  | some velocity =>
    (some (), { f with velocity := f.velocity.set pt (velocity + amount) })

/-- Test-fixture helper: the grid over `r` holding `f c` at every in-domain
coordinate and nothing elsewhere (the state `fill` produces). -/
def Grid.ofFn (T : Type) (r : Rect) (f : Coord2 → T) : Grid T :=
  ⟨r, fun c => if r.inDomain c then some (f c) else none⟩

/-- A 3×3 domain. -/
def r3 : Rect := ⟨3, 3, ⟨0, 0⟩⟩

/-- A fully set 3×3 vector grid with distinct nonzero values. -/
def g3v : Grid Vector2 := Grid.ofFn Vector2 r3 fun c => ⟨(c.x : ℚ) + 1, (c.y : ℚ) + 1⟩

/-- The value `x + 3y + 1` at a coordinate (the values 1..9 on a 3×3 grid). -/
def vfC2 : Coord2 → ℚ := fun c => (c.x : ℚ) + 3 * (c.y : ℚ) + 1

/-- A fully set 3×3 scalar grid holding `x + 3y + 1`. -/
def gC2 : Grid ℚ := Grid.ofFn ℚ r3 vfC2

/-- A 4×4 domain. -/
def r4 : Rect := ⟨4, 4, ⟨0, 0⟩⟩

/-- The value `x + 4y` at a coordinate. -/
def vf4 : Coord2 → ℚ := fun c => (c.x : ℚ) + 4 * (c.y : ℚ)

/-- A fully set 4×4 scalar grid holding `x + 4y`. -/
def g4src : Grid ℚ := Grid.ofFn ℚ r4 vf4

/-- A fully set 4×4 scalar grid of zeros (destination buffer). -/
def g4zero : Grid ℚ := Grid.ofFn ℚ r4 fun _ => 0

/-- A fully set 4×4 velocity grid that is the zero vector everywhere. -/
def g4vel0 : Grid Vector2 := Grid.ofFn Vector2 r4 fun _ => 0

/-- A 10×10 domain. -/
def r10 : Rect := ⟨10, 10, ⟨0, 0⟩⟩

/-! Helper lemmas shared by several claims. -/

theorem clam_eq_self (v mn mx : ℚ) (h1 : mn ≤ v) (h2 : v ≤ mx) : clam v mn mx = v := by
  unfold clam
  rw [if_neg (not_lt.2 h1), if_neg (not_lt.2 h2)]

theorem clam_bounds (v mn mx : ℚ) (h : mn ≤ mx) :
    mn ≤ clam v mn mx ∧ clam v mn mx ≤ mx := by
  unfold clam
  split
  · exact ⟨le_refl mn, h⟩
  · split
    · exact ⟨h, le_refl mx⟩
    · next h1 h2 => exact ⟨le_of_not_lt h1, le_of_not_lt h2⟩

theorem interpolate_intPoint (g : Grid ℚ) (x y : Int) (hx : 0 ≤ x) (hy : 0 ≤ y)
    (v00 v10 v01 v11 : ℚ)
    (h00 : g.items ⟨x, y⟩ = some v00) (h10 : g.items ⟨x + 1, y⟩ = some v10)
    (h01 : g.items ⟨x, y + 1⟩ = some v01) (h11 : g.items ⟨x + 1, y + 1⟩ = some v11) :
    g.interpolate ((x : ℚ), (y : ℚ)) = v11 := by
  simp only [Grid.interpolate, floorAsUsize, Int.floor_intCast, max_eq_right hx,
    max_eq_right hy, h00, h10, h01, h11, Option.map_some', Option.getD_some, sub_self]
  ring

/-- C1: after `set_bnd` on a fully set 3×3 vector grid, the Top edge point
(1,2) does *not* hold the mirror of its single inward neighbor (1,1):
`fix_edges` reads `(x, y+1)` for Top edges, which lies outside the grid, so
the cell is overwritten with `value_at_edge(Top, default)` — the zero vector
— instead of the required `⟨x, -y⟩` of the inward neighbor's value. -/
theorem C1_mirror_boundary_bug :
    (Fluid.set_bnd g3v).items ⟨1, 2⟩ = some (⟨0, 0⟩ : Vector2)
    ∧ g3v.items ⟨1, 1⟩ = some (⟨2, 2⟩ : Vector2)
    ∧ ValueAtEdge.value_at_edge Edge.Top (⟨2, 2⟩ : Vector2) = (⟨2, -2⟩ : Vector2)
    ∧ (⟨0, 0⟩ : Vector2) ≠ (⟨2, -2⟩ : Vector2) := by
  refine ⟨?_, ?_, ?_, ?_⟩
  · norm_num [Fluid.set_bnd, Fluid.fix_edges, Fluid.fix_corners, Corner.all, Grid.get_corner,
      Grid.set_corner, Grid.set, Grid.get_adjacent_neighbors, satSub1, Rect.coords_of_corner,
      Rect.edge_coord_iter, Rect.edge_at_coords, EdgeInfo.ofPair, EdgeInfo.get_edge,
      fixEdgesNeighborCoords, Grid.ofFn, Rect.inDomain, g3v, r3, List.range_succ,
      ValueAtEdge.value_at_edge, instValueAtEdgeVector2, instZeroVector2, instAddVector2,
      instHDivVector2, List.foldl, List.filterMap, Vector2.x_zero, Vector2.y_zero]
  · norm_num [g3v, Grid.ofFn, Rect.inDomain, r3]
  · norm_num [ValueAtEdge.value_at_edge, instValueAtEdgeVector2]
  · intro h
    have := congrArg Vector2.x h
    norm_num at this

/-- C2: after `set_bnd` on the fully set 3×3 scalar grid holding `x + 3y + 1`,
the corner (0,0) holds 4 — the pre-`set_bnd` sum `(2·v(0,0) + v(1,0) +
v(0,1)) / 2` — while its two adjacent edge cells end at 0 (Bottom edges read
the out-of-grid cell below) and 5, whose arithmetic mean is 5/2:
`set_bnd` runs `fix_corners` *before* `fix_edges`, and the saturating
neighbor query counts the corner itself. -/
theorem C2_corner_average_bug :
    (Fluid.set_bnd gC2).items ⟨0, 0⟩ = some 4
    ∧ (Fluid.set_bnd gC2).items ⟨1, 0⟩ = some 0
    ∧ (Fluid.set_bnd gC2).items ⟨0, 1⟩ = some 5
    ∧ ((4 : ℚ) ≠ ((0 : ℚ) + 5) / 2) := by
  refine ⟨?_, ?_, ?_, by norm_num⟩ <;>
    norm_num [Fluid.set_bnd, Fluid.fix_edges, Fluid.fix_corners, Corner.all, Grid.get_corner,
      Grid.set_corner, Grid.set, Grid.get_adjacent_neighbors, satSub1, Rect.coords_of_corner,
      Rect.edge_coord_iter, Rect.edge_at_coords, EdgeInfo.ofPair, EdgeInfo.get_edge,
      fixEdgesNeighborCoords, Grid.ofFn, Rect.inDomain, gC2, vfC2, r3, List.range_succ,
      ValueAtEdge.value_at_edge, instValueAtEdgeRat, List.foldl, List.filterMap]

/-- C6: the boundary enumeration of a 3×3 grid reaches the Bottom edge point
(1,0), and there the `neighbor_coords` match of `fix_edges` computes
`(x, y - 1)` with `y = 0`: the checked model of that `usize` subtraction
yields `none`, i.e. the unchecked source subtraction underflows (panics in
debug builds, wraps in release builds) — it neither saturates nor is
pre-filtered by boundary classification. -/
theorem C6_underflow_bug :
    (EdgeInfo.Edge .Bottom, (⟨1, 0⟩ : Coord2)) ∈ r3.edge_coord_iter
    ∧ fixEdgesNeighborCoordsChecked .Bottom ⟨1, 0⟩ = none
    ∧ fixEdgesNeighborCoords .Bottom ⟨1, 0⟩ = ⟨1, -1⟩ := by
  refine ⟨by decide, by decide, by decide⟩

/-- C3 (counterexample): on a freshly constructed `Fluid` the coordinate
(1,1) lies inside the domain, yet `add_dye((1,1), 1)` returns the failure
indicator and stores nothing — `Fluid::new` never fills the grids, so the
density cell is unset and `add_dye` is a no-op even inside the domain. -/
theorem C3_add_dye_counterexample :
    (Fluid.new 3 (1/10) 0 0).density.dimensions.contains ⟨1, 1⟩ = true
    ∧ ((Fluid.new 3 (1/10) 0 0).add_dye ⟨1, 1⟩ 1).fst = none
    ∧ ((Fluid.new 3 (1/10) 0 0).add_dye ⟨1, 1⟩ 1).snd.density.items ⟨1, 1⟩ = none := by
  refine ⟨by decide, ?_, ?_⟩ <;>
    norm_num [Fluid.new, Fluid.add_dye, Grid.from_dimensions]

/-- C3 (amended): `add_dye(pt, amount)` adds `amount` to the dye at `pt` and
returns the success indicator exactly when the density cell at `pt` is
currently set; when the cell is unset — in particular for any coordinate
outside the domain, and for *every* coordinate of a freshly constructed
`Fluid` — it is a no-op returning the failure indicator. -/
theorem C3_add_dye_amended (f : Fluid) (pt : Coord2) (amount : ℚ) :
    (∀ d, f.density.items pt = some d →
      (f.add_dye pt amount).fst = some ()
        ∧ (f.add_dye pt amount).snd.density.items pt = some (d + amount))
    ∧ (f.density.items pt = none → f.add_dye pt amount = (none, f)) := by
  constructor
  · intro d hd
    simp [Fluid.add_dye, hd, Grid.set]
  · intro hd
    simp [Fluid.add_dye, hd]

/-- A `Fluid` state whose density grid is fully set to 5 on a 3×3 domain. -/
def fluidW : Fluid :=
  ⟨0, 0, 1/10, 3, Grid.ofFn ℚ r3 fun _ => 5, Grid.from_dimensions ℚ r3,
    Grid.from_dimensions Vector2 r3, Grid.from_dimensions Vector2 r3⟩

/-- C3 witness: the amended claim evaluated on a fluid with a set cell. -/
theorem C3_add_dye_amended_witness :
    (fluidW.add_dye ⟨1, 1⟩ 1).fst = some ()
    ∧ (fluidW.add_dye ⟨1, 1⟩ 1).snd.density.items ⟨1, 1⟩ = some ((5 : ℚ) + 1) :=
  (C3_add_dye_amended fluidW ⟨1, 1⟩ 1).1 5 (by norm_num [fluidW, Grid.ofFn, Rect.inDomain, r3])

/-- C10: when the density cell at `pt` is set, `add_dye(pt, amount)` changes
only that cell (to its old value plus `amount`), returns success, and leaves
every other density cell, the density grid's dimensions, `density_prev`,
`velocity`, `velocity_prev` and all scalar parameters unchanged. -/
theorem C10_add_dye_frame (f : Fluid) (pt : Coord2) (amount d : ℚ)
    (hd : f.density.items pt = some d) :
    (f.add_dye pt amount).fst = some ()
    ∧ (f.add_dye pt amount).snd.density.items pt = some (d + amount)
    ∧ (∀ c, c ≠ pt → (f.add_dye pt amount).snd.density.items c = f.density.items c)
    ∧ (f.add_dye pt amount).snd.density.dimensions = f.density.dimensions
    ∧ (f.add_dye pt amount).snd.density_prev = f.density_prev
    ∧ (f.add_dye pt amount).snd.velocity = f.velocity
    ∧ (f.add_dye pt amount).snd.velocity_prev = f.velocity_prev
    ∧ (f.add_dye pt amount).snd.diff = f.diff
    ∧ (f.add_dye pt amount).snd.viscosity = f.viscosity
    ∧ (f.add_dye pt amount).snd.dt = f.dt
    ∧ (f.add_dye pt amount).snd.size = f.size := by
  refine ⟨?_, ?_, ?_, ?_, ?_, ?_, ?_, ?_, ?_, ?_, ?_⟩
  · simp [Fluid.add_dye, hd]
  · simp [Fluid.add_dye, hd, Grid.set]
  · intro c hc
    simp [Fluid.add_dye, hd, Grid.set, hc]
  all_goals simp [Fluid.add_dye, hd, Grid.set]

/-- C10 witness: the frame property evaluated on a concrete fluid. -/
theorem C10_add_dye_frame_witness :
    ((fluidW.add_dye ⟨1, 1⟩ 1).fst = some ()
    ∧ (fluidW.add_dye ⟨1, 1⟩ 1).snd.density.items ⟨1, 1⟩ = some ((5 : ℚ) + 1)
    ∧ (∀ c, c ≠ (⟨1, 1⟩ : Coord2) →
        (fluidW.add_dye ⟨1, 1⟩ 1).snd.density.items c = fluidW.density.items c)
    ∧ (fluidW.add_dye ⟨1, 1⟩ 1).snd.density.dimensions = fluidW.density.dimensions
    ∧ (fluidW.add_dye ⟨1, 1⟩ 1).snd.density_prev = fluidW.density_prev
    ∧ (fluidW.add_dye ⟨1, 1⟩ 1).snd.velocity = fluidW.velocity
    ∧ (fluidW.add_dye ⟨1, 1⟩ 1).snd.velocity_prev = fluidW.velocity_prev
    ∧ (fluidW.add_dye ⟨1, 1⟩ 1).snd.diff = fluidW.diff
    ∧ (fluidW.add_dye ⟨1, 1⟩ 1).snd.viscosity = fluidW.viscosity
    ∧ (fluidW.add_dye ⟨1, 1⟩ 1).snd.dt = fluidW.dt
    ∧ (fluidW.add_dye ⟨1, 1⟩ 1).snd.size = fluidW.size) :=
  C10_add_dye_frame fluidW ⟨1, 1⟩ 1 5 (by norm_num [fluidW, Grid.ofFn, Rect.inDomain, r3])

/-- C4 (counterexample): on the fully set 4×4 grid holding `x + 4y`, the
integer point (1,1) is strictly inside the domain and its four surrounding
cells are set, yet `interpolate((1.0, 1.0))` returns 10 — the value stored at
(2,2) — not the value 5 stored at (1,1): the source assigns the weight
`left_weight * bot_weight = fx * fy` to the *floor* corner, so at an integer
point all weight falls on the far corner. -/
theorem C4_interpolate_counterexample :
    g4src.items ⟨1, 1⟩ = some 5 ∧ g4src.items ⟨2, 1⟩ = some 6
    ∧ g4src.items ⟨1, 2⟩ = some 9 ∧ g4src.items ⟨2, 2⟩ = some 10
    ∧ g4src.interpolate ((1 : ℚ), (1 : ℚ)) = 10
    ∧ ((10 : ℚ) ≠ 5) := by
  refine ⟨?_, ?_, ?_, ?_, ?_, by norm_num⟩ <;>
    norm_num [Grid.interpolate, floorAsUsize, Grid.ofFn, Rect.inDomain, g4src, vf4, r4,
      Int.floor_intCast]

/-- C4 (amended): for every grid and integer coordinate (x, y) strictly
inside the domain whose four surrounding cells are set,
`interpolate((x, y))` returns exactly the value stored at (x+1, y+1) (not at
(x, y)): the bilinear weights are inverted, so at an integer point the far
corner carries weight 1. -/
theorem C4_interpolate_amended (g : Grid ℚ) (x y : Int)
    (hx1 : 1 ≤ x) (hx2 : x ≤ (g.dimensions.width : Int) - 2)
    (hy1 : 1 ≤ y) (hy2 : y ≤ (g.dimensions.height : Int) - 2)
    (v00 v10 v01 v11 : ℚ)
    (h00 : g.items ⟨x, y⟩ = some v00) (h10 : g.items ⟨x + 1, y⟩ = some v10)
    (h01 : g.items ⟨x, y + 1⟩ = some v01) (h11 : g.items ⟨x + 1, y + 1⟩ = some v11) :
    g.interpolate ((x : ℚ), (y : ℚ)) = v11 :=
  interpolate_intPoint g x y (le_trans zero_le_one hx1) (le_trans zero_le_one hy1)
    v00 v10 v01 v11 h00 h10 h01 h11

/-- C4 witness: the amended claim evaluated at (1,1) on the 4×4 grid. -/
theorem C4_interpolate_amended_witness :
    g4src.interpolate ((((1 : Int)) : ℚ), (((1 : Int)) : ℚ)) = 10 :=
  C4_interpolate_amended g4src 1 1 (by decide) (by decide) (by decide) (by decide)
    5 6 9 10
    (by norm_num [g4src, vf4, Grid.ofFn, Rect.inDomain, r4])
    (by norm_num [g4src, vf4, Grid.ofFn, Rect.inDomain, r4])
    (by norm_num [g4src, vf4, Grid.ofFn, Rect.inDomain, r4])
    (by norm_num [g4src, vf4, Grid.ofFn, Rect.inDomain, r4])

/-- C5 (counterexample): one `advect` pass with the zero velocity field over
the fully set 4×4 source grid holding `x + 4y` writes 10 — the source value
at (2,2) — into the interior cell (1,1) whose source value is 5: advection
with zero velocity is *not* the identity on the interior. -/
theorem C5_advect_counterexample :
    g4vel0.items ⟨1, 1⟩ = some 0
    ∧ (Fluid.advect 1 4 g4zero g4src g4vel0).items ⟨1, 1⟩ = some 10
    ∧ g4src.items ⟨1, 1⟩ = some 5
    ∧ ((10 : ℚ) ≠ 5) := by
  refine ⟨?_, ?_, ?_, by norm_num⟩ <;>
    norm_num [Fluid.advect, Fluid.advectTraceBack, clam, Grid.interpolate, floorAsUsize,
      Grid.ofFn, Rect.inDomain, g4src, vf4, g4zero, g4vel0, r4, Vector2.x_zero, Vector2.y_zero,
      Vector2.zero_def]

/-- C5 (amended): one `advect` pass with a velocity field that is the zero
vector everywhere shifts the field instead of preserving it: every interior
cell (x, y) with `x ≤ width - 3` and `y ≤ height - 3` receives the source
value stored at (x+1, y+1) (the inverted interpolation weights concentrate
the sample on the far corner of the traced-back cell). -/
theorem C5_advect_amended (r : Rect) (dt n : ℚ)
    (grid grid_prev : Grid ℚ) (vel_prev : Grid Vector2)
    (hgdim : grid.dimensions = r) (vf : Coord2 → ℚ)
    (hprev : ∀ c, r.inDomain c = true → grid_prev.items c = some (vf c))
    (hvel : ∀ c, r.inDomain c = true → vel_prev.items c = some 0)
    (x y : Int) (hx1 : 1 ≤ x) (hx2 : x ≤ (r.width : Int) - 3)
    (hy1 : 1 ≤ y) (hy2 : y ≤ (r.height : Int) - 3) :
    (Fluid.advect dt n grid grid_prev vel_prev).items ⟨x, y⟩ = some (vf ⟨x + 1, y + 1⟩) := by
  have hdom : r.inDomain ⟨x, y⟩ = true := by
    simp only [Rect.inDomain, decide_eq_true_eq]
    omega
  have hdom10 : r.inDomain ⟨x + 1, y⟩ = true := by
    simp only [Rect.inDomain, decide_eq_true_eq]
    omega
  have hdom01 : r.inDomain ⟨x, y + 1⟩ = true := by
    simp only [Rect.inDomain, decide_eq_true_eq]
    omega
  have hdom11 : r.inDomain ⟨x + 1, y + 1⟩ = true := by
    simp only [Rect.inDomain, decide_eq_true_eq]
    omega
  have htb : Fluid.advectTraceBack dt n r 0 x y = ((x : ℚ), (y : ℚ)) := by
    simp only [Fluid.advectTraceBack, Vector2.x_zero, Vector2.y_zero, zero_mul, sub_zero]
    have hxq1 : (1 : ℚ) ≤ (x : ℚ) := by exact_mod_cast hx1
    have hxq2 : (x : ℚ) ≤ (r.width : ℚ) - 3 := by exact_mod_cast hx2
    have hyq1 : (1 : ℚ) ≤ (y : ℚ) := by exact_mod_cast hy1
    have hyq2 : (y : ℚ) ≤ (r.height : ℚ) - 3 := by exact_mod_cast hy2
    have hbx : (((r.width : Int) - 2 : Int) : ℚ) - 1/2 = (r.width : ℚ) - 5/2 := by
      push_cast
      ring
    have hby : (((r.height : Int) - 2 : Int) : ℚ) - 1/2 = (r.height : ℚ) - 5/2 := by
      push_cast
      ring
    rw [hbx, hby]
    congr 1
    · exact clam_eq_self _ _ _ (by linarith) (by linarith)
    · exact clam_eq_self _ _ _ (by linarith) (by linarith)
  simp only [Fluid.advect, hgdim]
  rw [if_pos ⟨hx1, by omega, hy1, by omega⟩, hvel ⟨x, y⟩ hdom]
  simp only [Option.getD_some]
  rw [htb]
  exact congrArg some (interpolate_intPoint grid_prev x y (by omega) (by omega)
    (vf ⟨x, y⟩) (vf ⟨x + 1, y⟩) (vf ⟨x, y + 1⟩) (vf ⟨x + 1, y + 1⟩)
    (hprev _ hdom) (hprev _ hdom10) (hprev _ hdom01) (hprev _ hdom11))

/-- C5 witness: the amended claim evaluated on the 4×4 fixture. -/
theorem C5_advect_amended_witness :
    (Fluid.advect 1 4 g4zero g4src g4vel0).items ⟨1, 1⟩ = some (vf4 ⟨1 + 1, 1 + 1⟩) :=
  C5_advect_amended r4 1 4 g4zero g4src g4vel0 rfl vf4
    (fun c h => by simp [g4src, Grid.ofFn, h]) (fun c h => by simp [g4vel0, Grid.ofFn, h])
    1 1 (by decide) (by decide) (by decide) (by decide)

/-- C7 (counterexample): on a 10×10 domain the interior cell (8,1) with zero
velocity traces back to the raw position (8, 1); the claim's clamp interval
`[0.5, dimension - 1.5] = [0.5, 8.5]` would leave the x-axis sample at 8, but
the code clamps to `[0.5, (width - 2) - 0.5] = [0.5, 7.5]` and produces
7.5. -/
theorem C7_clamp_counterexample :
    Fluid.advectTraceBack 0 0 r10 0 8 1 = ((15/2 : ℚ), (1 : ℚ))
    ∧ clam (8 : ℚ) (1/2) ((10 : ℚ) - 3/2) = 8
    ∧ ((15/2 : ℚ) ≠ (8 : ℚ)) := by
  refine ⟨?_, ?_, by norm_num⟩ <;>
    norm_num [Fluid.advectTraceBack, clam, r10, Vector2.x_zero, Vector2.y_zero]

/-- C7 (amended): in `advect`, for every interior cell the traced-back sample
position is clamped per axis to `[0.5, dimension - 2.5]` (that is,
`[0.5, (dimension - 2) - 0.5]`, half a cell inside the interior maximum, one
full cell tighter than `dimension - 1.5`) before `interpolate` samples it,
and the clamped position always lies in that interval. -/
theorem C7_clamp_amended (T : Type) [Zero T] [Add T] [HMul T ℚ T]
    (dt n : ℚ) (r : Rect) (grid grid_prev : Grid T) (vel_prev : Grid Vector2)
    (hgdim : grid.dimensions = r) (hW : 3 ≤ r.width) (hH : 3 ≤ r.height)
    (x y : Int) (hx1 : 1 ≤ x) (hx2 : x ≤ (r.width : Int) - 2)
    (hy1 : 1 ≤ y) (hy2 : y ≤ (r.height : Int) - 2)
    (vel : Vector2) (hvel : vel_prev.items ⟨x, y⟩ = some vel) :
    (Fluid.advect dt n grid grid_prev vel_prev).items ⟨x, y⟩
      = some (grid_prev.interpolate (Fluid.advectTraceBack dt n r vel x y))
    ∧ (Fluid.advectTraceBack dt n r vel x y).1
        = clam ((x : ℚ) - vel.x * (dt * n)) (1/2) ((r.width : ℚ) - 5/2)
    ∧ (Fluid.advectTraceBack dt n r vel x y).2
        = clam ((y : ℚ) - vel.y * (dt * n)) (1/2) ((r.height : ℚ) - 5/2)
    ∧ 1/2 ≤ (Fluid.advectTraceBack dt n r vel x y).1
    ∧ (Fluid.advectTraceBack dt n r vel x y).1 ≤ (r.width : ℚ) - 5/2
    ∧ 1/2 ≤ (Fluid.advectTraceBack dt n r vel x y).2
    ∧ (Fluid.advectTraceBack dt n r vel x y).2 ≤ (r.height : ℚ) - 5/2 := by
  have hbx : (((r.width : Int) - 2 : Int) : ℚ) - 1/2 = (r.width : ℚ) - 5/2 := by
    push_cast
    ring
  have hby : (((r.height : Int) - 2 : Int) : ℚ) - 1/2 = (r.height : ℚ) - 5/2 := by
    push_cast
    ring
  have e1 : (Fluid.advectTraceBack dt n r vel x y).1
      = clam ((x : ℚ) - vel.x * (dt * n)) (1/2) ((r.width : ℚ) - 5/2) := by
    simp only [Fluid.advectTraceBack]
    rw [hbx]
  have e2 : (Fluid.advectTraceBack dt n r vel x y).2
      = clam ((y : ℚ) - vel.y * (dt * n)) (1/2) ((r.height : ℚ) - 5/2) := by
    simp only [Fluid.advectTraceBack]
    rw [hby]
  have hWq : (3 : ℚ) ≤ (r.width : ℚ) := by exact_mod_cast hW
  have hHq : (3 : ℚ) ≤ (r.height : ℚ) := by exact_mod_cast hH
  have bx := clam_bounds ((x : ℚ) - vel.x * (dt * n)) (1/2) ((r.width : ℚ) - 5/2)
    (by linarith)
  have by' := clam_bounds ((y : ℚ) - vel.y * (dt * n)) (1/2) ((r.height : ℚ) - 5/2)
    (by linarith)
  refine ⟨?_, e1, e2, ?_, ?_, ?_, ?_⟩
  · simp only [Fluid.advect, hgdim]
    rw [if_pos ⟨hx1, hx2, hy1, hy2⟩, hvel]
    simp only [Option.getD_some]
  · rw [e1]
    exact bx.1
  · rw [e1]
    exact bx.2
  · rw [e2]
    exact by'.1
  · rw [e2]
    exact by'.2

/-- C7 witness: the amended claim evaluated at (1,1) on the 4×4 fixture. -/
theorem C7_clamp_amended_witness :
    (Fluid.advect 1 4 g4zero g4src g4vel0).items ⟨1, 1⟩
      = some (g4src.interpolate (Fluid.advectTraceBack 1 4 r4 0 1 1))
    ∧ (Fluid.advectTraceBack 1 4 r4 0 1 1).1
        = clam ((((1 : Int)) : ℚ) - (0 : Vector2).x * (1 * 4)) (1/2) ((r4.width : ℚ) - 5/2)
    ∧ (Fluid.advectTraceBack 1 4 r4 0 1 1).2
        = clam ((((1 : Int)) : ℚ) - (0 : Vector2).y * (1 * 4)) (1/2) ((r4.height : ℚ) - 5/2)
    ∧ 1/2 ≤ (Fluid.advectTraceBack 1 4 r4 0 1 1).1
    ∧ (Fluid.advectTraceBack 1 4 r4 0 1 1).1 ≤ (r4.width : ℚ) - 5/2
    ∧ 1/2 ≤ (Fluid.advectTraceBack 1 4 r4 0 1 1).2
    ∧ (Fluid.advectTraceBack 1 4 r4 0 1 1).2 ≤ (r4.height : ℚ) - 5/2 :=
  C7_clamp_amended ℚ 1 4 r4 g4zero g4src g4vel0 rfl (by decide) (by decide)
    1 1 (by decide) (by decide) (by decide) (by decide)
    0 (by simp [g4vel0, Grid.ofFn, Rect.inDomain, r4])

/-- C9: on a grid whose every in-domain coordinate is set (domain at least
3×3), `get_adjacent_neighbors` at x = 0 yields the queried coordinate itself
in place of the left neighbor (the saturating `x - 1`), likewise at y = 0 for
the bottom neighbor, and at (0,0) the query yields exactly 4 items with the
cell's own (coordinate, value) pair appearing twice. -/
theorem C9_saturating_neighbors (T : Type) (r : Rect) (hW : 3 ≤ r.width) (hH : 3 ≤ r.height)
    (g : Grid T) (vf : Coord2 → T)
    (hv : ∀ c, r.inDomain c = true → g.items c = some (vf c)) :
    (∀ y : Int, 0 ≤ y → y < (r.height : Int) →
      (g.get_adjacent_neighbors ⟨0, y⟩).head? = some (⟨0, y⟩, vf ⟨0, y⟩))
    ∧ (∀ x : Int, 0 ≤ x → x < (r.width : Int) →
      (⟨x, 0⟩, vf ⟨x, 0⟩) ∈ g.get_adjacent_neighbors ⟨x, 0⟩)
    ∧ g.get_adjacent_neighbors ⟨0, 0⟩ =
      [(⟨0, 0⟩, vf ⟨0, 0⟩), (⟨1, 0⟩, vf ⟨1, 0⟩), (⟨0, 0⟩, vf ⟨0, 0⟩), (⟨0, 1⟩, vf ⟨0, 1⟩)] := by
  have hWi : (3 : Int) ≤ (r.width : Int) := by exact_mod_cast hW
  have hHi : (3 : Int) ≤ (r.height : Int) := by exact_mod_cast hH
  refine ⟨?_, ?_, ?_⟩
  · intro y hy0 hyH
    have hdom : r.inDomain ⟨0, y⟩ = true := by
      simp only [Rect.inDomain, decide_eq_true_eq]
      omega
    simp [Grid.get_adjacent_neighbors, satSub1, hv ⟨0, y⟩ hdom]
  · intro x hx0 hxW
    have hdom : r.inDomain ⟨x, 0⟩ = true := by
      simp only [Rect.inDomain, decide_eq_true_eq]
      omega
    have hmem : (⟨x, 0⟩ : Coord2) ∈
        ([⟨satSub1 x, 0⟩, ⟨x + 1, 0⟩, ⟨x, satSub1 0⟩, ⟨x, 0 + 1⟩] : List Coord2) := by
      have : satSub1 (0 : Int) = 0 := rfl
      simp [this]
    exact List.mem_filterMap.2 ⟨⟨x, 0⟩, hmem, by rw [hv ⟨x, 0⟩ hdom]; rfl⟩
  · have h00 : r.inDomain ⟨0, 0⟩ = true := by
      simp only [Rect.inDomain, decide_eq_true_eq]
      omega
    have h10 : r.inDomain ⟨1, 0⟩ = true := by
      simp only [Rect.inDomain, decide_eq_true_eq]
      omega
    have h01 : r.inDomain ⟨0, 1⟩ = true := by
      simp only [Rect.inDomain, decide_eq_true_eq]
      omega
    simp [Grid.get_adjacent_neighbors, satSub1, hv ⟨0, 0⟩ h00, hv ⟨1, 0⟩ h10, hv ⟨0, 1⟩ h01]

/-- C9 witness: the saturating neighbor query evaluated on the 3×3 fixture. -/
theorem C9_saturating_neighbors_witness :
    gC2.get_adjacent_neighbors ⟨0, 0⟩ =
      [(⟨0, 0⟩, vfC2 ⟨0, 0⟩), (⟨1, 0⟩, vfC2 ⟨1, 0⟩), (⟨0, 0⟩, vfC2 ⟨0, 0⟩), (⟨0, 1⟩, vfC2 ⟨0, 1⟩)] :=
  (C9_saturating_neighbors ℚ r3 (by decide) (by decide) gC2 vfC2
    (fun c h => by simp [gC2, Grid.ofFn, h])).2.2

/-- The four corner coordinates of a W×H rect, as the claim describes them:
both components extremal. -/
def Rect.isCornerCoord (r : Rect) (c : Coord2) : Bool :=
  decide ((c.x = 0 ∨ c.x = (r.width : Int) - 1) ∧ (c.y = 0 ∨ c.y = (r.height : Int) - 1))

/-- The pure-edge coordinates of a W×H rect, as the claim describes them:
in-domain, on the boundary, and not a corner. -/
def Rect.isPureEdgeCoord (r : Rect) (c : Coord2) : Bool :=
  r.inDomain c
    && decide (c.x = 0 ∨ c.x = (r.width : Int) - 1 ∨ c.y = 0 ∨ c.y = (r.height : Int) - 1)
    && !(r.isCornerCoord c)

theorem range_decomp (n : Nat) (h : 3 ≤ n) :
    List.range n = [0] ++ List.range' 1 (n - 2) ++ [n - 1] := by
  obtain ⟨m, rfl⟩ : ∃ m, n = m + 3 := ⟨n - 3, by omega⟩
  rw [List.range_eq_range', show m + 3 - 2 = m + 1 by omega, show m + 3 - 1 = m + 2 by omega]
  have e1 : List.range' 0 (m + 3) = 0 :: List.range' 1 (m + 2) := List.range'_succ 0 (m + 2) 1
  have e2 : List.range' 1 (m + 2) = List.range' 1 (m + 1) ++ [1 + (m + 1)] :=
    List.range'_1_concat 1 (m + 1)
  rw [e1, e2, show 1 + (m + 1) = m + 2 by omega]
  simp [List.append_assoc]

theorem tag_top_left (r : Rect) (hH : 3 ≤ r.height) :
    r.edge_at_coords ⟨0, (r.height : Int) - 1⟩ = .Corner .Top .Left := by
  have h1 : ¬((r.height : Int) - 1 = 0) := by omega
  simp [Rect.edge_at_coords, h1, EdgeInfo.ofPair]

theorem tag_top_right (r : Rect) (hW : 3 ≤ r.width) (hH : 3 ≤ r.height) :
    r.edge_at_coords ⟨(r.width : Int) - 1, (r.height : Int) - 1⟩ = .Corner .Top .Right := by
  have h1 : ¬((r.width : Int) - 1 = 0) := by omega
  have h2 : ¬((r.height : Int) - 1 = 0) := by omega
  simp [Rect.edge_at_coords, h1, h2, EdgeInfo.ofPair]

theorem tag_bottom_left (r : Rect) :
    r.edge_at_coords ⟨0, 0⟩ = .Corner .Bottom .Left := by
  simp [Rect.edge_at_coords, EdgeInfo.ofPair]

theorem tag_bottom_right (r : Rect) (hW : 3 ≤ r.width) :
    r.edge_at_coords ⟨(r.width : Int) - 1, 0⟩ = .Corner .Bottom .Right := by
  have h1 : ¬((r.width : Int) - 1 = 0) := by omega
  simp [Rect.edge_at_coords, h1, EdgeInfo.ofPair]

theorem tag_top_mid (r : Rect) (hW : 3 ≤ r.width) (hH : 3 ≤ r.height)
    (k : Nat) (hk1 : 1 ≤ k) (hk2 : k < r.width - 1) :
    r.edge_at_coords ⟨(k : Int), (r.height : Int) - 1⟩ = .Edge .Top := by
  have h1 : ¬((k : Int) = 0) := by omega
  have h2 : ¬((k : Int) = (r.width : Int) - 1) := by omega
  have h3 : ¬((r.height : Int) - 1 = 0) := by omega
  simp [Rect.edge_at_coords, h1, h2, h3, EdgeInfo.ofPair]

theorem tag_bottom_mid (r : Rect) (hW : 3 ≤ r.width)
    (k : Nat) (hk1 : 1 ≤ k) (hk2 : k < r.width - 1) :
    r.edge_at_coords ⟨(k : Int), 0⟩ = .Edge .Bottom := by
  have h1 : ¬((k : Int) = 0) := by omega
  have h2 : ¬((k : Int) = (r.width : Int) - 1) := by omega
  simp [Rect.edge_at_coords, h1, h2, EdgeInfo.ofPair]

theorem tag_left_mid (r : Rect) (hH : 3 ≤ r.height)
    (k : Nat) (hk1 : 1 ≤ k) (hk2 : k < r.height - 1) :
    r.edge_at_coords ⟨0, (k : Int)⟩ = .Edge .Left := by
  have h1 : ¬((k : Int) = 0) := by omega
  have h2 : ¬((k : Int) = (r.height : Int) - 1) := by omega
  simp [Rect.edge_at_coords, h1, h2, EdgeInfo.ofPair]

theorem tag_right_mid (r : Rect) (hW : 3 ≤ r.width) (hH : 3 ≤ r.height)
    (k : Nat) (hk1 : 1 ≤ k) (hk2 : k < r.height - 1) :
    r.edge_at_coords ⟨(r.width : Int) - 1, (k : Int)⟩ = .Edge .Right := by
  have h1 : ¬((r.width : Int) - 1 = 0) := by omega
  have h2 : ¬((k : Int) = 0) := by omega
  have h3 : ¬((k : Int) = (r.height : Int) - 1) := by omega
  simp [Rect.edge_at_coords, h1, h2, h3, EdgeInfo.ofPair]

theorem edge_coord_iter_shape (r : Rect) (hW : 3 ≤ r.width) :
    r.edge_coord_iter =
      [(r.edge_at_coords ⟨0, (r.height : Int) - 1⟩, (⟨0, (r.height : Int) - 1⟩ : Coord2))]
      ++ (List.range' 1 (r.width - 2)).map
          (fun (k : Nat) => (r.edge_at_coords ⟨(k : Int), (r.height : Int) - 1⟩,
            (⟨(k : Int), (r.height : Int) - 1⟩ : Coord2)))
      ++ [(r.edge_at_coords ⟨(r.width : Int) - 1, (r.height : Int) - 1⟩,
            (⟨(r.width : Int) - 1, (r.height : Int) - 1⟩ : Coord2))]
      ++ [(r.edge_at_coords ⟨0, 0⟩, (⟨0, 0⟩ : Coord2))]
      ++ (List.range' 1 (r.width - 2)).map
          (fun (k : Nat) => (r.edge_at_coords ⟨(k : Int), 0⟩, (⟨(k : Int), 0⟩ : Coord2)))
      ++ [(r.edge_at_coords ⟨(r.width : Int) - 1, 0⟩, (⟨(r.width : Int) - 1, 0⟩ : Coord2))]
      ++ (List.range' 1 (r.height - 2)).map
          (fun (k : Nat) => (r.edge_at_coords ⟨0, (k : Int)⟩, (⟨0, (k : Int)⟩ : Coord2)))
      ++ (List.range' 1 (r.height - 2)).map
          (fun (k : Nat) => (r.edge_at_coords ⟨(r.width : Int) - 1, (k : Int)⟩,
            (⟨(r.width : Int) - 1, (k : Int)⟩ : Coord2))) := by
  have hw1 : ((r.width - 1 : Nat) : Int) = (r.width : Int) - 1 := by omega
  simp only [Rect.edge_coord_iter]
  rw [range_decomp r.width hW]
  simp only [List.map_append, List.map_cons, List.map_nil, List.map_map, List.append_assoc,
    List.cons_append, List.nil_append, Nat.cast_zero, hw1]
  rfl

theorem edge_coord_iter_decomp (r : Rect) (hW : 3 ≤ r.width) (hH : 3 ≤ r.height) :
    r.edge_coord_iter =
      [(.Corner .Top .Left, (⟨0, (r.height : Int) - 1⟩ : Coord2))]
      ++ (List.range' 1 (r.width - 2)).map
          (fun (k : Nat) => (EdgeInfo.Edge .Top, (⟨(k : Int), (r.height : Int) - 1⟩ : Coord2)))
      ++ [(.Corner .Top .Right,
            (⟨(r.width : Int) - 1, (r.height : Int) - 1⟩ : Coord2))]
      ++ [(.Corner .Bottom .Left, (⟨0, 0⟩ : Coord2))]
      ++ (List.range' 1 (r.width - 2)).map
          (fun (k : Nat) => (EdgeInfo.Edge .Bottom, (⟨(k : Int), 0⟩ : Coord2)))
      ++ [(.Corner .Bottom .Right, (⟨(r.width : Int) - 1, 0⟩ : Coord2))]
      ++ (List.range' 1 (r.height - 2)).map
          (fun (k : Nat) => (EdgeInfo.Edge .Left, (⟨0, (k : Int)⟩ : Coord2)))
      ++ (List.range' 1 (r.height - 2)).map
          (fun (k : Nat) => (EdgeInfo.Edge .Right,
            (⟨(r.width : Int) - 1, (k : Int)⟩ : Coord2))) := by
  have mtop : (List.range' 1 (r.width - 2)).map
      (fun (k : Nat) => (r.edge_at_coords ⟨(k : Int), (r.height : Int) - 1⟩,
        (⟨(k : Int), (r.height : Int) - 1⟩ : Coord2)))
      = (List.range' 1 (r.width - 2)).map
      (fun (k : Nat) => (EdgeInfo.Edge .Top, (⟨(k : Int), (r.height : Int) - 1⟩ : Coord2))) :=
    List.map_congr_left fun k hk => by
      rw [List.mem_range'_1] at hk
      rw [tag_top_mid r hW hH k hk.1 (by omega)]
  have mbot : (List.range' 1 (r.width - 2)).map
      (fun (k : Nat) => (r.edge_at_coords ⟨(k : Int), 0⟩, (⟨(k : Int), 0⟩ : Coord2)))
      = (List.range' 1 (r.width - 2)).map
      (fun (k : Nat) => (EdgeInfo.Edge .Bottom, (⟨(k : Int), 0⟩ : Coord2))) :=
    List.map_congr_left fun k hk => by
      rw [List.mem_range'_1] at hk
      rw [tag_bottom_mid r hW k hk.1 (by omega)]
  have mleft : (List.range' 1 (r.height - 2)).map
      (fun (k : Nat) => (r.edge_at_coords ⟨0, (k : Int)⟩, (⟨0, (k : Int)⟩ : Coord2)))
      = (List.range' 1 (r.height - 2)).map
      (fun (k : Nat) => (EdgeInfo.Edge .Left, (⟨0, (k : Int)⟩ : Coord2))) :=
    List.map_congr_left fun k hk => by
      rw [List.mem_range'_1] at hk
      rw [tag_left_mid r hH k hk.1 (by omega)]
  have mright : (List.range' 1 (r.height - 2)).map
      (fun (k : Nat) => (r.edge_at_coords ⟨(r.width : Int) - 1, (k : Int)⟩,
        (⟨(r.width : Int) - 1, (k : Int)⟩ : Coord2)))
      = (List.range' 1 (r.height - 2)).map
      (fun (k : Nat) => (EdgeInfo.Edge .Right, (⟨(r.width : Int) - 1, (k : Int)⟩ : Coord2))) :=
    List.map_congr_left fun k hk => by
      rw [List.mem_range'_1] at hk
      rw [tag_right_mid r hW hH k hk.1 (by omega)]
  rw [edge_coord_iter_shape r hW, mtop, mbot, mleft, mright, tag_top_left r hH,
    tag_top_right r hW hH, tag_bottom_left r, tag_bottom_right r hW]

theorem edgeIter_length (r : Rect) (hW : 3 ≤ r.width) (hH : 3 ≤ r.height) :
    r.edge_coord_iter.length = 2 * r.width + 2 * r.height - 4 := by
  rw [edge_coord_iter_decomp r hW hH]
  simp only [List.length_append, List.length_map, List.length_cons, List.length_nil,
    List.length_range']
  omega

theorem edgeIter_coords (r : Rect) :
    r.edge_coord_iter.map Prod.snd =
      (List.range r.width).map (fun (x : Nat) => (⟨(x : Int), (r.height : Int) - 1⟩ : Coord2))
      ++ (List.range r.width).map (fun (x : Nat) => (⟨(x : Int), 0⟩ : Coord2))
      ++ (List.range' 1 (r.height - 2)).map (fun (y : Nat) => (⟨0, (y : Int)⟩ : Coord2))
      ++ (List.range' 1 (r.height - 2)).map
          (fun (y : Nat) => (⟨(r.width : Int) - 1, (y : Int)⟩ : Coord2)) := by
  simp only [Rect.edge_coord_iter, List.map_append, List.map_map]
  rfl

theorem edgeIter_coords_nodup (r : Rect) (hW : 3 ≤ r.width) (hH : 3 ≤ r.height) :
    (r.edge_coord_iter.map Prod.snd).Nodup := by
  rw [edgeIter_coords r]
  have inj_y : ∀ b : Int, Function.Injective (fun (x : Nat) => (⟨(x : Int), b⟩ : Coord2)) := by
    intro b a1 a2 h
    simpa using h
  have inj_x : ∀ b : Int, Function.Injective (fun (y : Nat) => (⟨b, (y : Int)⟩ : Coord2)) := by
    intro b a1 a2 h
    simpa using h
  have nA := (List.nodup_range r.width).map (inj_y ((r.height : Int) - 1))
  have nB := (List.nodup_range r.width).map (inj_y 0)
  have nC := (List.nodup_range' 1 (r.height - 2)).map (inj_x 0)
  have nD := (List.nodup_range' 1 (r.height - 2)).map (inj_x ((r.width : Int) - 1))
  have dAB : ((List.range r.width).map
      (fun (x : Nat) => (⟨(x : Int), (r.height : Int) - 1⟩ : Coord2))).Disjoint
      ((List.range r.width).map (fun (x : Nat) => (⟨(x : Int), 0⟩ : Coord2))) := by
    rw [List.disjoint_left]
    rintro a ha hb
    simp only [List.mem_map, List.mem_range] at ha hb
    obtain ⟨u, hu, rfl⟩ := ha
    obtain ⟨v, hv, hvv⟩ := hb
    have hy := congrArg Coord2.y hvv
    simp at hy
    omega
  have dAC : ((List.range r.width).map
      (fun (x : Nat) => (⟨(x : Int), (r.height : Int) - 1⟩ : Coord2))).Disjoint
      ((List.range' 1 (r.height - 2)).map (fun (y : Nat) => (⟨0, (y : Int)⟩ : Coord2))) := by
    rw [List.disjoint_left]
    rintro a ha hb
    simp only [List.mem_map, List.mem_range, List.mem_range'_1] at ha hb
    obtain ⟨u, hu, rfl⟩ := ha
    obtain ⟨v, hv, hvv⟩ := hb
    have hy := congrArg Coord2.y hvv
    simp at hy
    omega
  have dAD : ((List.range r.width).map
      (fun (x : Nat) => (⟨(x : Int), (r.height : Int) - 1⟩ : Coord2))).Disjoint
      ((List.range' 1 (r.height - 2)).map
        (fun (y : Nat) => (⟨(r.width : Int) - 1, (y : Int)⟩ : Coord2))) := by
    rw [List.disjoint_left]
    rintro a ha hb
    simp only [List.mem_map, List.mem_range, List.mem_range'_1] at ha hb
    obtain ⟨u, hu, rfl⟩ := ha
    obtain ⟨v, hv, hvv⟩ := hb
    have hy := congrArg Coord2.y hvv
    simp at hy
    omega
  have dBC : ((List.range r.width).map
      (fun (x : Nat) => (⟨(x : Int), 0⟩ : Coord2))).Disjoint
      ((List.range' 1 (r.height - 2)).map (fun (y : Nat) => (⟨0, (y : Int)⟩ : Coord2))) := by
    rw [List.disjoint_left]
    rintro a ha hb
    simp only [List.mem_map, List.mem_range, List.mem_range'_1] at ha hb
    obtain ⟨u, hu, rfl⟩ := ha
    obtain ⟨v, hv, hvv⟩ := hb
    have hy := congrArg Coord2.y hvv
    simp at hy
    omega
  have dBD : ((List.range r.width).map
      (fun (x : Nat) => (⟨(x : Int), 0⟩ : Coord2))).Disjoint
      ((List.range' 1 (r.height - 2)).map
        (fun (y : Nat) => (⟨(r.width : Int) - 1, (y : Int)⟩ : Coord2))) := by
    rw [List.disjoint_left]
    rintro a ha hb
    simp only [List.mem_map, List.mem_range, List.mem_range'_1] at ha hb
    obtain ⟨u, hu, rfl⟩ := ha
    obtain ⟨v, hv, hvv⟩ := hb
    have hy := congrArg Coord2.y hvv
    simp at hy
    omega
  have dCD : ((List.range' 1 (r.height - 2)).map
      (fun (y : Nat) => (⟨0, (y : Int)⟩ : Coord2))).Disjoint
      ((List.range' 1 (r.height - 2)).map
        (fun (y : Nat) => (⟨(r.width : Int) - 1, (y : Int)⟩ : Coord2))) := by
    rw [List.disjoint_left]
    rintro a ha hb
    simp only [List.mem_map, List.mem_range'_1] at ha hb
    obtain ⟨u, hu, rfl⟩ := ha
    obtain ⟨v, hv, hvv⟩ := hb
    have hx := congrArg Coord2.x hvv
    simp at hx
    omega
  exact ((nA.append nB dAB).append nC
      (by rw [List.disjoint_append_left]; exact ⟨dAC, dBC⟩)).append nD
      (by rw [List.disjoint_append_left, List.disjoint_append_left]; exact ⟨⟨dAD, dBD⟩, dCD⟩)

theorem edgeIter_tags_sound (r : Rect) (hW : 3 ≤ r.width) (hH : 3 ≤ r.height) :
    ∀ p ∈ r.edge_coord_iter,
      match p.1 with
      | .Corner _ _ => r.isCornerCoord p.2 = true
      | .Edge _ => r.isPureEdgeCoord p.2 = true
      | .Neither => False := by
  rw [edge_coord_iter_decomp r hW hH]
  intro p hp
  simp only [List.cons_append, List.nil_append, List.mem_cons, List.mem_append,
    List.mem_map, List.mem_range'_1, List.not_mem_nil, or_false, false_or] at hp
  rcases hp with rfl | (((((⟨k, hk, rfl⟩ | rfl) | rfl) | ⟨k, hk, rfl⟩) | rfl) | ⟨k, hk, rfl⟩) |
    ⟨k, hk, rfl⟩
  · simp [Rect.isCornerCoord]
  · simp only [Rect.isPureEdgeCoord, Rect.inDomain, Rect.isCornerCoord, Bool.and_eq_true,
      Bool.not_eq_true', decide_eq_true_eq, decide_eq_false_iff_not, or_true, and_true,
      true_and, true_or, or_false, false_or]
    omega
  · simp [Rect.isCornerCoord]
  · simp [Rect.isCornerCoord]
  · simp only [Rect.isPureEdgeCoord, Rect.inDomain, Rect.isCornerCoord, Bool.and_eq_true,
      Bool.not_eq_true', decide_eq_true_eq, decide_eq_false_iff_not, or_true, and_true,
      true_and, true_or, or_false, false_or]
    omega
  · simp [Rect.isCornerCoord]
  · simp only [Rect.isPureEdgeCoord, Rect.inDomain, Rect.isCornerCoord, Bool.and_eq_true,
      Bool.not_eq_true', decide_eq_true_eq, decide_eq_false_iff_not, or_true, and_true,
      true_and, true_or, or_false, false_or]
    omega
  · simp only [Rect.isPureEdgeCoord, Rect.inDomain, Rect.isCornerCoord, Bool.and_eq_true,
      Bool.not_eq_true', decide_eq_true_eq, decide_eq_false_iff_not, or_true, and_true,
      true_and, true_or, or_false, false_or]
    omega

theorem edgeIter_corners_complete (r : Rect) (hW : 3 ≤ r.width) (hH : 3 ≤ r.height) :
    ∀ c : Coord2, r.isCornerCoord c = true →
      ∃ e1 e2, (EdgeInfo.Corner e1 e2, c) ∈ r.edge_coord_iter := by
  intro c hc
  simp only [Rect.isCornerCoord, decide_eq_true_eq] at hc
  obtain ⟨cx, cy⟩ := c
  rw [edge_coord_iter_decomp r hW hH]
  simp only [List.cons_append, List.nil_append, List.mem_cons, List.mem_append, List.mem_map,
    List.mem_range'_1, List.not_mem_nil, or_false, false_or]
  obtain ⟨hx | hx, hy | hy⟩ := hc <;> subst hx <;> subst hy
  · exact ⟨.Bottom, .Left, by simp⟩
  · exact ⟨.Top, .Left, by simp⟩
  · exact ⟨.Bottom, .Right, by simp⟩
  · exact ⟨.Top, .Right, by simp⟩

theorem edgeIter_edges_complete (r : Rect) (hW : 3 ≤ r.width) (hH : 3 ≤ r.height) :
    ∀ c : Coord2, r.isPureEdgeCoord c = true →
      ∃ e, (EdgeInfo.Edge e, c) ∈ r.edge_coord_iter := by
  intro c hc
  obtain ⟨cx, cy⟩ := c
  simp only [Rect.isPureEdgeCoord, Rect.inDomain, Rect.isCornerCoord, Bool.and_eq_true,
    Bool.not_eq_true', decide_eq_true_eq, decide_eq_false_iff_not] at hc
  obtain ⟨⟨hdom, hbnd⟩, hnc⟩ := hc
  rw [edge_coord_iter_decomp r hW hH]
  rcases hbnd with hx | hx | hy | hy
  · subst hx
    have hyb : ¬(cy = 0 ∨ cy = (r.height : Int) - 1) := fun h => hnc ⟨Or.inl rfl, h⟩
    refine ⟨.Left, ?_⟩
    have hm : (EdgeInfo.Edge Edge.Left, (⟨0, cy⟩ : Coord2)) ∈
        (List.range' 1 (r.height - 2)).map
          (fun (k : Nat) => (EdgeInfo.Edge Edge.Left, (⟨0, (k : Int)⟩ : Coord2))) := by
      refine List.mem_map.2 ⟨cy.toNat, List.mem_range'_1.2 ⟨by omega, by omega⟩, ?_⟩
      have h' : ((cy.toNat : Nat) : Int) = cy := Int.toNat_of_nonneg (by omega)
      rw [h']
    exact List.mem_append_left _ (List.mem_append_right _ hm)
  · subst hx
    have hyb : ¬(cy = 0 ∨ cy = (r.height : Int) - 1) := fun h => hnc ⟨Or.inr rfl, h⟩
    refine ⟨.Right, ?_⟩
    have hm : (EdgeInfo.Edge Edge.Right, (⟨(r.width : Int) - 1, cy⟩ : Coord2)) ∈
        (List.range' 1 (r.height - 2)).map
          (fun (k : Nat) => (EdgeInfo.Edge Edge.Right,
            (⟨(r.width : Int) - 1, (k : Int)⟩ : Coord2))) := by
      refine List.mem_map.2 ⟨cy.toNat, List.mem_range'_1.2 ⟨by omega, by omega⟩, ?_⟩
      have h' : ((cy.toNat : Nat) : Int) = cy := Int.toNat_of_nonneg (by omega)
      rw [h']
    exact List.mem_append_right _ hm
  · subst hy
    have hxb : ¬(cx = 0 ∨ cx = (r.width : Int) - 1) := fun h => hnc ⟨h, Or.inl rfl⟩
    refine ⟨.Bottom, ?_⟩
    have hm : (EdgeInfo.Edge Edge.Bottom, (⟨cx, 0⟩ : Coord2)) ∈
        (List.range' 1 (r.width - 2)).map
          (fun (k : Nat) => (EdgeInfo.Edge Edge.Bottom, (⟨(k : Int), 0⟩ : Coord2))) := by
      refine List.mem_map.2 ⟨cx.toNat, List.mem_range'_1.2 ⟨by omega, by omega⟩, ?_⟩
      have h' : ((cx.toNat : Nat) : Int) = cx := Int.toNat_of_nonneg (by omega)
      rw [h']
    exact List.mem_append_left _ (List.mem_append_left _ (List.mem_append_left _
      (List.mem_append_right _ hm)))
  · subst hy
    have hxb : ¬(cx = 0 ∨ cx = (r.width : Int) - 1) := fun h => hnc ⟨h, Or.inr rfl⟩
    refine ⟨.Top, ?_⟩
    have hm : (EdgeInfo.Edge Edge.Top, (⟨cx, (r.height : Int) - 1⟩ : Coord2)) ∈
        (List.range' 1 (r.width - 2)).map
          (fun (k : Nat) => (EdgeInfo.Edge Edge.Top,
            (⟨(k : Int), (r.height : Int) - 1⟩ : Coord2))) := by
      refine List.mem_map.2 ⟨cx.toNat, List.mem_range'_1.2 ⟨by omega, by omega⟩, ?_⟩
      have h' : ((cx.toNat : Nat) : Int) = cx := Int.toNat_of_nonneg (by omega)
      rw [h']
    exact List.mem_append_left _ (List.mem_append_left _ (List.mem_append_left _
      (List.mem_append_left _ (List.mem_append_left _ (List.mem_append_left _
        (List.mem_append_right _ hm))))))

theorem edgeIter_corner_count (r : Rect) (hW : 3 ≤ r.width) (hH : 3 ≤ r.height) :
    (r.edge_coord_iter.countP fun p =>
      match p.1 with
      | .Corner _ _ => true
      | _ => false) = 4 := by
  rw [edge_coord_iter_decomp r hW hH]
  simp [List.countP_append, List.countP_map, List.countP_cons, Function.comp_def,
    List.countP_false, List.countP_true]

theorem edgeIter_edge_count (r : Rect) (hW : 3 ≤ r.width) (hH : 3 ≤ r.height) :
    (r.edge_coord_iter.countP fun p =>
      match p.1 with
      | .Edge _ => true
      | _ => false) = 2 * (r.width - 2) + 2 * (r.height - 2) := by
  rw [edge_coord_iter_decomp r hW hH]
  simp [List.countP_append, List.countP_map, List.countP_cons, Function.comp_def,
    List.countP_false, List.countP_true]
  omega

/-- C8: for every W×H rect with W, H ≥ 3, `edge_coord_iter` yields exactly
`2W + 2H - 4` entries with pairwise-distinct coordinates, every entry tagged
Corner lies at one of the 4 corner coordinates and every entry tagged Edge at
a pure-edge coordinate (and no entry is tagged Neither), all 4 corner
coordinates and all pure-edge coordinates do appear with those tags, and the
Corner/Edge tag counts are exactly 4 and `2(W-2) + 2(H-2)`. -/
theorem C8_boundary_enumeration (r : Rect) (hW : 3 ≤ r.width) (hH : 3 ≤ r.height) :
    r.edge_coord_iter.length = 2 * r.width + 2 * r.height - 4
    ∧ (r.edge_coord_iter.map Prod.snd).Nodup
    ∧ (∀ p ∈ r.edge_coord_iter,
        match p.1 with
        | .Corner _ _ => r.isCornerCoord p.2 = true
        | .Edge _ => r.isPureEdgeCoord p.2 = true
        | .Neither => False)
    ∧ (∀ c : Coord2, r.isCornerCoord c = true →
        ∃ e1 e2, (EdgeInfo.Corner e1 e2, c) ∈ r.edge_coord_iter)
    ∧ (∀ c : Coord2, r.isPureEdgeCoord c = true →
        ∃ e, (EdgeInfo.Edge e, c) ∈ r.edge_coord_iter)
    ∧ (r.edge_coord_iter.countP fun p =>
        match p.1 with
        | .Corner _ _ => true
        | _ => false) = 4
    ∧ (r.edge_coord_iter.countP fun p =>
        match p.1 with
        | .Edge _ => true
        | _ => false) = 2 * (r.width - 2) + 2 * (r.height - 2) :=
  ⟨edgeIter_length r hW hH, edgeIter_coords_nodup r hW hH, edgeIter_tags_sound r hW hH,
    edgeIter_corners_complete r hW hH, edgeIter_edges_complete r hW hH,
    edgeIter_corner_count r hW hH, edgeIter_edge_count r hW hH⟩

/-- C8 witness: the boundary enumeration facts evaluated on the 3×3 rect. -/
theorem C8_boundary_enumeration_witness :
    r3.edge_coord_iter.length = 2 * r3.width + 2 * r3.height - 4
    ∧ (r3.edge_coord_iter.map Prod.snd).Nodup
    ∧ (∀ p ∈ r3.edge_coord_iter,
        match p.1 with
        | .Corner _ _ => r3.isCornerCoord p.2 = true
        | .Edge _ => r3.isPureEdgeCoord p.2 = true
        | .Neither => False)
    ∧ (∀ c : Coord2, r3.isCornerCoord c = true →
        ∃ e1 e2, (EdgeInfo.Corner e1 e2, c) ∈ r3.edge_coord_iter)
    ∧ (∀ c : Coord2, r3.isPureEdgeCoord c = true →
        ∃ e, (EdgeInfo.Edge e, c) ∈ r3.edge_coord_iter)
    ∧ (r3.edge_coord_iter.countP fun p =>
        match p.1 with
        | .Corner _ _ => true
        | _ => false) = 4
    ∧ (r3.edge_coord_iter.countP fun p =>
        match p.1 with
        | .Edge _ => true
        | _ => false) = 2 * (r3.width - 2) + 2 * (r3.height - 2) :=
  C8_boundary_enumeration r3 (by decide) (by decide)

end Swirl
